import Mathlib

/-!
# Verification of the w101-client-go protocol stack

A shallow embedding in Lean 4 of the wire codecs and client logic of the
`w101-client-go` repository: the outer frame envelope (`proto/frame.go`),
the DML message envelope and message router (`proto/proto.go`), the
session-control codec (`proto/control/control.go`), the login crypto
(`login`, Twofish-OFB keystream XOR) and the DML table decoder (`dml`).

Go bytes are modelled as `Nat` (values `0..255` on real data); Go machine
arithmetic (`uint16`, `uint32` casts and additions) is made explicit with
`% 65536` / `% 4294967296`.  Fallible Go functions return `Option` (or a
dedicated result type when the Go code can also panic: out-of-range slice
or array indexing, send on a closed channel).
-/

/-- Little-endian bytes of a `uint16` value, as written by
`binary.Write(..., binary.LittleEndian, uint16)`.  Agrees with the Go
`uint16` truncating cast: `u16le n = u16le (n % 65536)`. -/
def u16le (n : Nat) : List Nat := [n % 256, n / 256 % 256]

/-- Little-endian bytes of a `uint32` value. -/
def u32le (n : Nat) : List Nat :=
  [n % 256, n / 256 % 256, n / 65536 % 256, n / 16777216 % 256]

/-- `binary.Read(r, binary.LittleEndian, &x)` for `x : uint16` on a byte
stream: consumes exactly two bytes (error if fewer are available). -/
def readU16 : List Nat → Option (Nat × List Nat)
  | a :: b :: rest => some (a + 256 * b, rest)
  | _ => none

/-- `binary.Read(r, binary.LittleEndian, &x)` for `x : uint32`. -/
def readU32 : List Nat → Option (Nat × List Nat)
  | a :: b :: c :: d :: rest => some (a + 256 * (b + 256 * (c + 256 * d)), rest)
  | _ => none

/-- `io.ReadFull(r, make([]byte, n))`: consumes exactly `n` bytes, error if
fewer are available. -/
def readBytes (n : Nat) (l : List Nat) : Option (List Nat × List Nat) :=
  if n ≤ l.length then some (l.take n, l.drop n) else none

/-- Little-endian value of a byte list (`binary.LittleEndian.Uint16/Uint32`
on a slice of the corresponding width). -/
def leVal : List Nat → Nat
  | [] => 0
  | b :: rest => b + 256 * leVal rest

theorem readU16_u16le (n : Nat) (h : n < 65536) (rest : List Nat) :
    readU16 (u16le n ++ rest) = some (n, rest) := by
  simp only [u16le, List.cons_append, List.nil_append, readU16,
    Option.some.injEq, Prod.mk.injEq, and_true]
  omega

theorem readU32_u32le (n : Nat) (h : n < 4294967296) (rest : List Nat) :
    readU32 (u32le n ++ rest) = some (n, rest) := by
  simp only [u32le, List.cons_append, List.nil_append, readU32,
    Option.some.injEq, Prod.mk.injEq, and_true]
  omega

theorem readBytes_exact (l rest : List Nat) :
    readBytes l.length (l ++ rest) = some (l, rest) := by
  simp [readBytes, List.take_left, List.drop_left]

/-! ## Frame codec (`proto/frame.go`) -/

/-- `proto.Frame`. -/
structure Frame where
  Control : Bool
  Opcode : Nat
  MessageData : List Nat
deriving DecidableEq

/-- `const headerMagic uint16 = 0xF00D`. -/
def headerMagic : Nat := 0xF00D

/-- `math.MaxUint32`. -/
def maxUint32 : Nat := 4294967295

/-- `Frame.Marshal`: 4-byte inner header (control flag, opcode, two zero
bytes) followed by the message data. -/
def Frame.marshal (f : Frame) : List Nat :=
  (if f.Control then 1 else 0) :: f.Opcode :: 0 :: 0 :: f.MessageData

/-- `Frame.Unmarshal`: requires at least 5 bytes; `Control = (data[0] == 1)`,
`Opcode = data[1]`, `MessageData = data[4:]`. -/
def Frame.unmarshal (data : List Nat) : Option Frame :=
  if data.length < 5 then none
  else some
    { Control := data.getD 0 0 == 1
      Opcode := data.getD 1 0
      MessageData := data.drop 4 }

/-- `FrameWriter.Write`: magic, then a short length `len(rawFrame)+1` when
`len(rawFrame) ≤ 0x7FFF`, otherwise the marker `0x8000` followed by a
4-byte length `uint32(len(rawFrame)+1)`; then the marshalled frame and a
trailing zero byte.  Errors (`none`) when `len(rawFrame) > math.MaxUint32`. -/
def frameWrite (f : Frame) : Option (List Nat) :=
  if f.marshal.length > 0x7FFF then
    if f.marshal.length > maxUint32 then none
    else some (u16le headerMagic ++ u16le 0x8000 ++
      u32le ((f.marshal.length + 1) % 4294967296) ++ f.marshal ++ [0])
  else
    some (u16le headerMagic ++ u16le (f.marshal.length + 1) ++ f.marshal ++ [0])

/-- `FrameReader.Read` on a byte stream: read and check the magic, read the
16-bit length, re-read a 32-bit length when the short length is `≥ 0x8000`,
read that many raw bytes and unmarshal them.  Returns the frame and the
unconsumed rest of the stream. -/
def frameRead (input : List Nat) : Option (Frame × List Nat) :=
  match readU16 input with
  | none => none
  | some (magic, r1) =>
    if magic = headerMagic then
      match readU16 r1 with
      | none => none
      | some (length, r2) =>
        match (if 0x8000 ≤ length then readU32 r2 else some (length, r2)) with
        | none => none
        | some (realLength, r3) =>
          match readBytes realLength r3 with
          | none => none
          | some (rawFrame, r4) =>
            match Frame.unmarshal rawFrame with
            | none => none
            | some f => some (f, r4)
    else none

theorem frame_unmarshal_marshal_null (f : Frame) :
    Frame.unmarshal (f.marshal ++ [0]) =
      some { Control := f.Control, Opcode := f.Opcode,
             MessageData := f.MessageData ++ [0] } := by
  obtain ⟨c, op, msg⟩ := f
  simp only [Frame.marshal, List.cons_append, Frame.unmarshal, List.length_cons,
    List.length_append, List.length_nil]
  rw [if_neg (by omega)]
  cases c <;> simp

theorem frame_marshal_length (f : Frame) :
    f.marshal.length = f.MessageData.length + 4 := by
  simp [Frame.marshal]

theorem readBytes_zero (l : List Nat) : readBytes 0 l = some ([], l) := by
  simp [readBytes]

/-- C1 (amended): for every frame whose marshalled body is not exactly
`0x7FFF` bytes (there the writer's short length `0x8000` is misread by the
reader as the long-length marker) and is small enough for the length
fields, writing with `FrameWriter.Write` and reading the bytes back with
`FrameReader.Read` succeeds and yields the same `Control` and `Opcode` but
`MessageData` extended by the trailing zero byte, which the reader includes
in the body it slices. -/
theorem frame_roundtrip (f : Frame)
    (hne : f.marshal.length ≠ 0x7FFF)
    (hle : f.marshal.length ≤ maxUint32 - 1) :
    (frameWrite f).bind frameRead =
      some ({ Control := f.Control, Opcode := f.Opcode,
              MessageData := f.MessageData ++ [0] }, []) := by
  have hrb : readBytes (f.marshal.length + 1) (f.marshal ++ [0]) =
      some (f.marshal ++ [0], []) := by
    have h := readBytes_exact (f.marshal ++ [0]) []
    simpa using h
  unfold maxUint32 at hle
  by_cases hbig : f.marshal.length > 0x7FFF
  · have hnmax : ¬ f.marshal.length > maxUint32 := by unfold maxUint32; omega
    have hmod : (f.marshal.length + 1) % 4294967296 = f.marshal.length + 1 :=
      Nat.mod_eq_of_lt (by omega)
    rw [frameWrite, if_pos hbig, if_neg hnmax, hmod]
    simp only [Option.bind, frameRead, List.append_assoc,
      readU16_u16le headerMagic (by decide),
      readU16_u16le 0x8000 (by decide),
      readU32_u32le (f.marshal.length + 1) (by omega),
      le_refl, if_true, hrb, frame_unmarshal_marshal_null]
  · have hlt : ¬ (0x8000 ≤ f.marshal.length + 1) := by omega
    rw [frameWrite, if_neg hbig]
    simp only [Option.bind, frameRead, List.append_assoc,
      readU16_u16le headerMagic (by decide),
      readU16_u16le (f.marshal.length + 1) (by omega),
      hlt, if_true, if_false, hrb, frame_unmarshal_marshal_null]

/-- Witness for `frame_roundtrip` at the concrete frame
`{Control := true, Opcode := 7, MessageData := [1,2,3,4,5]}`. -/
theorem frame_roundtrip_witness :
    ((Frame.mk true 7 [1, 2, 3, 4, 5]).marshal.length ≠ 0x7FFF ∧
      (Frame.mk true 7 [1, 2, 3, 4, 5]).marshal.length ≤ maxUint32 - 1) ∧
    (frameWrite (Frame.mk true 7 [1, 2, 3, 4, 5])).bind frameRead =
      some (Frame.mk true 7 [1, 2, 3, 4, 5, 0], []) :=
  ⟨⟨by decide, by decide⟩,
    frame_roundtrip (Frame.mk true 7 [1, 2, 3, 4, 5]) (by decide) (by decide)⟩

/-- C1 (counterexample): the empty-payload frame does not round-trip
unchanged: the reader's byte count includes the writer's trailing zero
byte, so the decoded `MessageData` is `[0]`, not `[]`. -/
theorem frame_roundtrip_cex :
    (frameWrite (Frame.mk false 0 [])).bind frameRead =
      some (Frame.mk false 0 [0], []) ∧
    Frame.mk false 0 [0] ≠ Frame.mk false 0 [] := by decide

/-- C3: at marshalled body length exactly `0x7FFF` (message data of
`0x7FFB` bytes) the condition `len(rawFrame) > 0x7FFF` is false, so
`FrameWriter.Write` emits the SHORT length form carrying
`len(rawFrame)+1 = 0x8000` and no 4-byte long length — but `0x8000` is
precisely the value `FrameReader.Read` treats as the long-form marker, so
the reader misparses the writer's own output and the frame fails to decode. -/
theorem frame_write_boundary_bug :
    frameWrite (Frame.mk false 0 (List.replicate 32763 0)) =
      some (u16le headerMagic ++ u16le 0x8000 ++
        (Frame.mk false 0 (List.replicate 32763 0)).marshal ++ [0]) ∧
    (frameWrite (Frame.mk false 0 (List.replicate 32763 0))).bind frameRead = none := by
  obtain ⟨msg, hmsg⟩ : ∃ l : List Nat, List.replicate 32763 0 = l := ⟨_, rfl⟩
  have hl : msg.length = 32763 := by rw [← hmsg, List.length_replicate]
  rw [hmsg]
  have hlen : (Frame.mk false 0 msg).marshal.length = 32767 := by
    rw [frame_marshal_length]
    simp [hl]
  have hw : frameWrite (Frame.mk false 0 msg) =
      some (u16le headerMagic ++ u16le 0x8000 ++
        (Frame.mk false 0 msg).marshal ++ [0]) := by
    rw [frameWrite, if_neg (by rw [hlen]; omega), hlen]
  refine ⟨hw, ?_⟩
  rw [hw]
  simp only [Option.bind, frameRead, List.append_assoc,
    readU16_u16le headerMagic (by decide),
    readU16_u16le 0x8000 (by decide), le_refl, if_true, Frame.marshal,
    List.cons_append, readU32, Frame.unmarshal]
  norm_num
  rw [readBytes_zero]
  simp

/-! ## DML codec (`proto/proto.go`) -/

/-- `proto.DMLMessage`. -/
structure DMLMessage where
  ServiceID : Nat
  OrderNumber : Nat
  Packet : List Nat
deriving DecidableEq

/-- Result of `DMLMessage.Unmarshal`: Go code of this shape can return an
error, return a decoded message, or panic (an out-of-range slice
expression). -/
inductive DMLResult where
  | ok (m : DMLMessage)
  | error
  | panic
deriving DecidableEq

/-- `DMLMessage.Marshal`: `[ServiceID, OrderNumber]`, then the `uint16`
length field `len(buf) + len(d.Packet) + 2 = len(d.Packet) + 4`
little-endian, then the packet. -/
def DMLMessage.marshal (d : DMLMessage) : List Nat :=
  d.ServiceID :: d.OrderNumber :: (u16le (d.Packet.length + 4) ++ d.Packet)

/-- `DMLMessage.Unmarshal`: requires at least 4 bytes; reads the 16-bit
length field from `buf[2:4]`, adds 1 in `uint16` arithmetic (wrapping at
65536), rejects messages where the result exceeds `uint16(len(buf))`, then
evaluates the Go slice expression `buf[4:dataLen]` — which panics when
`dataLen < 4` (and would panic when `dataLen > len(buf)`, though the
preceding check rules that out). -/
def DMLMessage.unmarshal (buf : List Nat) : DMLResult :=
  if buf.length < 4 then .error
  else
    let dataLen := (buf.getD 2 0 + 256 * buf.getD 3 0 + 1) % 65536
    if dataLen > buf.length % 65536 then .error
    else if 4 ≤ dataLen ∧ dataLen ≤ buf.length then
      .ok ⟨buf.getD 0 0, buf.getD 1 0, (buf.take dataLen).drop 4⟩
    else .panic

/-- C2 (counterexample): the DML codec does not round-trip on its own:
`Marshal` stores `len(Packet) + 4` in the length field while `Unmarshal`
computes `data_len = field + 1 = len(Packet) + 5 > len(buf) = len(Packet) + 4`,
so decoding the encoder's exact output always fails — here at the
concrete message `{ServiceID := 0, OrderNumber := 0, Packet := []}`. -/
theorem dml_roundtrip_cex :
    DMLMessage.unmarshal (DMLMessage.marshal ⟨0, 0, []⟩) = DMLResult.error ∧
    DMLMessage.unmarshal (DMLMessage.marshal ⟨0, 0, []⟩) ≠
      DMLResult.ok ⟨0, 0, []⟩ := by decide

/-- C2 (amended): `Unmarshal` inverts `Marshal` only up to the frame
layer's trailing zero byte: for every message whose packet leaves the
16-bit length arithmetic un-wrapped, decoding `Marshal`'s output with one
extra trailing byte appended (exactly what `FrameReader.Read` delivers,
since the on-wire length counts the trailer) succeeds and returns the same
`ServiceID` and `OrderNumber`, with `Packet` extended by that trailing
byte. -/
theorem dml_roundtrip_with_trailer (m : DMLMessage)
    (h : m.Packet.length + 5 ≤ 65535) :
    DMLMessage.unmarshal (DMLMessage.marshal m ++ [0]) =
      DMLResult.ok ⟨m.ServiceID, m.OrderNumber, m.Packet ++ [0]⟩ := by
  obtain ⟨sid, ord, pkt⟩ := m
  simp only [DMLMessage.Packet] at h
  have hbuf : DMLMessage.marshal ⟨sid, ord, pkt⟩ ++ [0] =
      sid :: ord :: (pkt.length + 4) % 256 :: ((pkt.length + 4) / 256 % 256) ::
        (pkt ++ [0]) := by
    simp [DMLMessage.marshal, u16le]
  rw [hbuf, DMLMessage.unmarshal]
  have hlen : (sid :: ord :: (pkt.length + 4) % 256 :: ((pkt.length + 4) / 256 % 256) ::
      (pkt ++ [0])).length = pkt.length + 5 := by simp
  rw [hlen]
  rw [if_neg (by omega)]
  simp only [List.getD_cons_succ, List.getD_cons_zero]
  have hdl : ((pkt.length + 4) % 256 + 256 * ((pkt.length + 4) / 256 % 256) + 1) % 65536 =
      pkt.length + 5 := by omega
  rw [hdl]
  rw [if_neg (by omega)]
  rw [if_pos ⟨by omega, by omega⟩]
  have htake : (sid :: ord :: (pkt.length + 4) % 256 :: ((pkt.length + 4) / 256 % 256) ::
      (pkt ++ [0])).take (pkt.length + 5) =
      sid :: ord :: (pkt.length + 4) % 256 :: ((pkt.length + 4) / 256 % 256) ::
        (pkt ++ [0]) := List.take_of_length_le (by simp)
  rw [htake]
  simp

/-- Witness for `dml_roundtrip_with_trailer` at
`{ServiceID := 1, OrderNumber := 2, Packet := [9]}`. -/
theorem dml_roundtrip_with_trailer_witness :
    (DMLMessage.mk 1 2 [9]).Packet.length + 5 ≤ 65535 ∧
    DMLMessage.unmarshal (DMLMessage.marshal ⟨1, 2, [9]⟩ ++ [0]) =
      DMLResult.ok ⟨1, 2, [9, 0]⟩ :=
  ⟨by decide, dml_roundtrip_with_trailer ⟨1, 2, [9]⟩ (by decide)⟩

/-- C5: `DMLMessage.Unmarshal` is NOT total: on the 4-byte buffer
`[0, 0, 0xFF, 0xFF]` the length field is `0xFFFF`, the computed
`dataLen = 0xFFFF + 1` wraps to `0` in `uint16` arithmetic, the bounds
check `0 > uint16(4)` passes, and the slice expression `buf[4:0]` panics
(slice low bound exceeds high bound). -/
theorem dml_unmarshal_wrap_panic :
    DMLMessage.unmarshal [0, 0, 0xFF, 0xFF] = DMLResult.panic := by decide

/-! ## Message router (`proto/proto.go`) -/

/-- A registered handler: `func(DMLMessage) error`. -/
def Handler := DMLMessage → Except String Unit

/-- The result of `MessageRouter.Handle`: Go code of this shape can return
`nil`, return a handler's error, or panic (out-of-range array index). -/
inductive HandleResult where
  | ok
  | error (e : String)
  | panic

/-- `messageRouter [255][]func(DMLMessage) error` — note the array length
is 255, not 256. -/
def messageRouter := Fin 255 → List Handler

/-- `serviceRouter [255]messageRouter`. -/
def serviceRouter := Fin 255 → messageRouter

/-- `proto.MessageRouter` (the middleware list is irrelevant to dispatch
and registration-indexing and is omitted). -/
structure MessageRouter where
  serviceRoutes : serviceRouter

/-- `NewMessageRouter()`: the zero value, no handlers anywhere. -/
def newMessageRouter : MessageRouter := ⟨fun _ _ => []⟩

/-- The `for` loop of `MessageRouter.Handle`: run the handlers in order,
stopping at the first error. -/
def runHandlers : List Handler → DMLMessage → Except String Unit
  | [], _ => .ok ()
  | h :: t, d =>
    match h d with
    | .error e => .error e
    | .ok _ => runHandlers t d

/-- `MessageRouter.Handle(service, order, d)`: indexes
`r.serviceRoutes[service][order]`.  Go panics with an index-out-of-range
error when a 255-element array is indexed with a byte value ≥ 255. -/
def MessageRouter.handle (r : MessageRouter) (service order : Nat)
    (d : DMLMessage) : HandleResult :=
  if hs : service < 255 then
    if ho : order < 255 then
      match runHandlers (r.serviceRoutes ⟨service, hs⟩ ⟨order, ho⟩) d with
      | .ok _ => .ok
      | .error e => .error e
    else .panic
  else .panic

/-- `RegisterMessageHandler`'s final statement
`router.serviceRoutes[service][order] = append(..., decodeFunc)`: the same
255-element array indexing, so the same panic (`none`) when either byte
is 255; otherwise the handler list at `(service, order)` is extended. -/
def registerMessageHandler (r : MessageRouter) (service order : Nat)
    (h : Handler) : Option MessageRouter :=
  if hs : service < 255 then
    if ho : order < 255 then
      some ⟨fun s o =>
        if s = ⟨service, hs⟩ ∧ o = ⟨order, ho⟩ then
          r.serviceRoutes s o ++ [h]
        else r.serviceRoutes s o⟩
    else none
  else none

/-- C4: dispatch and registration are NOT well-defined on all byte keys:
the router arrays have 255 slots (`[255][]func...`), so byte value 255 is
out of range and `Handle(255, o, d)` / `RegisterMessageHandler(r, 255, o, h)`
panic, while for in-range keys with no registered handler `Handle` does
return without error. -/
theorem router_byte_255_panics :
    MessageRouter.handle newMessageRouter 255 0 ⟨0, 0, []⟩ = HandleResult.panic ∧
    MessageRouter.handle newMessageRouter 0 255 ⟨0, 0, []⟩ = HandleResult.panic ∧
    registerMessageHandler newMessageRouter 255 0 (fun _ => .ok ()) = none ∧
    MessageRouter.handle newMessageRouter 254 254 ⟨0, 0, []⟩ = HandleResult.ok :=
  ⟨rfl, rfl, rfl, rfl⟩

/-! ## Session client shutdown and send (`proto/proto.go`) -/

/-- Observable effect counts of `Client.Close`: whether the `sync.Once` has
fired, and how many times the heartbeat ticker was stopped, each channel
was closed, and `conn.Close()` was called. -/
structure CloseState where
  onceDone : Bool
  tickerStops : Nat
  readControlCloses : Nat
  readMessageCloses : Nat
  writeMessageCloses : Nat
  connCloses : Nat
deriving DecidableEq

/-- The state before any `Close` call. -/
def initClose : CloseState :=
  { onceDone := false, tickerStops := 0, readControlCloses := 0,
    readMessageCloses := 0, writeMessageCloses := 0, connCloses := 0 }

/-- One call of `Client.Close`: `closeOnce.Do` stops the ticker and closes
the three channels only on the first call, but `c.conn.Close()` sits
OUTSIDE the `once` and runs on every call. -/
def clientClose (s : CloseState) : CloseState :=
  let s' :=
    if s.onceDone then s
    else
      ⟨true, s.tickerStops + 1, s.readControlCloses + 1,
        s.readMessageCloses + 1, s.writeMessageCloses + 1, s.connCloses⟩
  ⟨s'.onceDone, s'.tickerStops, s'.readControlCloses, s'.readMessageCloses,
    s'.writeMessageCloses, s'.connCloses + 1⟩

/-- `n` successive calls of `Client.Close`. -/
def closeN : Nat → CloseState → CloseState
  | 0, s => s
  | n + 1, s => closeN n (clientClose s)

theorem closeN_of_onceDone (n : Nat) (a b c d e : Nat) :
    closeN n ⟨true, a, b, c, d, e⟩ = ⟨true, a, b, c, d, e + n⟩ := by
  induction n generalizing e with
  | zero => rfl
  | succ n ih =>
    show closeN n (clientClose ⟨true, a, b, c, d, e⟩) = _
    rw [show clientClose ⟨true, a, b, c, d, e⟩ = ⟨true, a, b, c, d, e + 1⟩ from rfl, ih]
    congr 1
    omega

/-- C7 (counterexample): `Close` is not fully idempotent: two calls close
the socket twice, because `c.conn.Close()` is outside `closeOnce.Do`. -/
theorem client_close_cex : (closeN 2 initClose).connCloses = 2 := by decide

/-- C7 (amended): for every `N ≥ 1`, calling `Close` `N` times stops the
heartbeat ticker exactly once and closes each of the three channels
exactly once, but calls `conn.Close()` on the socket `N` times (only the
first of which closes an open socket; the rest return an error on the
already-closed connection). -/
theorem client_close_idempotent (n : Nat) (h : 1 ≤ n) :
    closeN n initClose =
      { onceDone := true, tickerStops := 1, readControlCloses := 1,
        readMessageCloses := 1, writeMessageCloses := 1, connCloses := n } := by
  obtain ⟨m, rfl⟩ : ∃ m, n = m + 1 := ⟨n - 1, by omega⟩
  show closeN m (clientClose initClose) = _
  rw [show clientClose initClose = ⟨true, 1, 1, 1, 1, 1⟩ from rfl,
    closeN_of_onceDone]
  congr 1
  omega

/-- Witness for `client_close_idempotent` at `N = 3`. -/
theorem client_close_idempotent_witness :
    1 ≤ 3 ∧ closeN 3 initClose =
      { onceDone := true, tickerStops := 1, readControlCloses := 1,
        readMessageCloses := 1, writeMessageCloses := 1, connCloses := 3 } :=
  ⟨by decide, client_close_idempotent 3 (by decide)⟩

/-- A Go channel, as observed by a single sender: whether `close` has been
called on it, and its buffered contents. -/
structure GoChan (α : Type) where
  closed : Bool
  buffered : List α

/-- Sending on a Go channel: sending on a CLOSED channel panics (`none`);
otherwise the value is enqueued. -/
def chanSend {α : Type} (ch : GoChan α) (x : α) : Option (GoChan α) :=
  if ch.closed then none
  else some { ch with buffered := ch.buffered ++ [x] }

/-- `Client.WriteMessage(service, order, msg)`: wraps the marshalled
message in a `DMLMessage`, marshals that into a zero-valued (non-control)
`Frame`, and performs an unguarded send on `writeMessageCh`.  The Go
method always returns `nil`; its only failure mode is the send itself. -/
def clientWriteMessage (ch : GoChan Frame) (service order : Nat)
    (msgBytes : List Nat) : Option (GoChan Frame) :=
  chanSend ch
    { Control := false, Opcode := 0,
      MessageData := DMLMessage.marshal ⟨service, order, msgBytes⟩ }

/-- C8: after `Close` has closed `writeMessageCh`, `WriteMessage` performs
a send on a closed channel, which panics in Go — it does not return a
`Closed` error.  Before shutdown the same send succeeds and returns `nil`. -/
theorem write_message_after_close_panics :
    clientWriteMessage { closed := true, buffered := [] } 1 2 [9] = none ∧
    clientWriteMessage { closed := false, buffered := [] } 1 2 [9] =
      some { closed := false,
             buffered := [{ Control := false, Opcode := 0,
                            MessageData := DMLMessage.marshal ⟨1, 2, [9]⟩ }] } :=
  ⟨rfl, rfl⟩

/-! ## Session-control codec (`proto/control/control.go`) -/

/-- `control.SessionOffer`. -/
structure SessionOffer where
  SessionID : Nat
  TimeSecs : Nat
  TimeMillis : Nat
  RawMessage : List Nat
  Signature : List Nat
deriving DecidableEq

/-- `bytes.Reader.Read(make([]byte, n))`, with the reader's cursor
represented by the not-yet-consumed suffix `l`: returns `io.EOF` when the
cursor is at the end; otherwise copies `min n len(l)` bytes into the
zero-filled `n`-byte buffer, advances by that many, and reports no error
even when fewer than `n` bytes were available. -/
def goRead (n : Nat) (l : List Nat) : Option (List Nat × List Nat) :=
  if l.length = 0 then none
  else some (l.take (min n l.length) ++ List.replicate (n - min n l.length) 0,
    l.drop (min n l.length))

/-- `SessionOffer.UnmarshalBinary`: read `session_id : u16`, seek 4 bytes
forward (`buf.Seek(4, io.SeekCurrent)` on a `bytes.Reader` never fails
going forward; seeking past the end leaves nothing to read, i.e. an empty
suffix), read `time_secs : u32`, `time_millis : u32` and `msg_len : u32`,
then `Read` `msg_len` bytes; split off a 256-byte signature only when
`len(msg) > 256` — otherwise `RawMessage` and `Signature` keep whatever
the receiver held before (nil on a fresh struct). -/
def sessionOfferUnmarshal (s : SessionOffer) (data : List Nat) :
    Option SessionOffer :=
  match readU16 data with
  | none => none
  | some (sid, r1) =>
    match readU32 (r1.drop 4) with
    | none => none
    | some (ts, r2) =>
      match readU32 r2 with
      | none => none
      | some (tm, r3) =>
        match readU32 r3 with
        | none => none
        | some (msgLen, r4) =>
          match goRead msgLen r4 with
          | none => none
          | some (msg, _) =>
            if 256 < msg.length then
              some ⟨sid, ts, tm, msg.take (msg.length - 256),
                msg.drop (msg.length - 256)⟩
            else
              some ⟨sid, ts, tm, s.RawMessage, s.Signature⟩

/-- C6 (counterexample): on a well-formed offer payload with
`session_id = 1`, `time_secs = 2`, `time_millis = 3` and a one-byte
message `[7]` (so `msg_len = 1 ≤ 256`), decoding into a fresh struct
leaves `RawMessage` empty — it does NOT become the message bytes `[7]` as
the claim states. -/
theorem session_offer_small_msg_cex :
    sessionOfferUnmarshal ⟨0, 0, 0, [], []⟩
        [1, 0, 0, 0, 0, 0, 2, 0, 0, 0, 3, 0, 0, 0, 1, 0, 0, 0, 7, 0] =
      some ⟨1, 2, 3, [], []⟩ ∧
    sessionOfferUnmarshal ⟨0, 0, 0, [], []⟩
        [1, 0, 0, 0, 0, 0, 2, 0, 0, 0, 3, 0, 0, 0, 1, 0, 0, 0, 7, 0] ≠
      some ⟨1, 2, 3, [7], []⟩ := by decide

theorem goRead_exact (msg : List Nat) :
    goRead msg.length (msg ++ [0]) = some (msg, [0]) := by
  have hne : ¬ ((msg ++ [0]).length = 0) := by simp
  have hmin : min msg.length (msg ++ [0]).length = msg.length :=
    min_eq_left (by simp)
  rw [goRead, if_neg hne, hmin]
  simp [List.take_left, List.drop_left]

/-- C6 (amended): decoding a well-formed offer payload (as produced by
`SessionOffer.MarshalBinary`: id, 4 zero pad bytes, times, `msg_len`, the
message bytes, trailing zero) recovers `session_id`, `time_secs` and
`time_millis`; when `msg_len > 256` the last 256 bytes of the message
become `Signature` and the prefix `RawMessage`, but when `msg_len ≤ 256`
both fields are left UNCHANGED on the receiver (empty on a fresh struct) —
the message bytes are discarded, not assigned to `raw_message`. -/
theorem session_offer_unmarshal_spec (s : SessionOffer) (sid ts tm : Nat)
    (msg : List Nat) (hsid : sid < 65536) (hts : ts < 4294967296)
    (htm : tm < 4294967296) (hmsg : msg.length < 4294967296) :
    sessionOfferUnmarshal s
        (u16le sid ++ [0, 0, 0, 0] ++ u32le ts ++ u32le tm ++
          u32le msg.length ++ msg ++ [0]) =
      some ⟨sid, ts, tm,
        if 256 < msg.length then msg.take (msg.length - 256) else s.RawMessage,
        if 256 < msg.length then msg.drop (msg.length - 256) else s.Signature⟩ := by
  simp only [List.append_assoc]
  simp only [sessionOfferUnmarshal,
    readU16_u16le sid hsid, List.cons_append, List.nil_append,
    List.drop_succ_cons, List.drop_zero,
    readU32_u32le ts hts, readU32_u32le tm htm,
    readU32_u32le msg.length hmsg, goRead_exact]
  by_cases hm : 256 < msg.length <;> simp [hm]

/-- Witness for `session_offer_unmarshal_spec` with `sid = 1`, times `2`
and `3`, and the one-byte message `[7]`. -/
theorem session_offer_unmarshal_spec_witness :
    ((1 : Nat) < 65536 ∧ (2 : Nat) < 4294967296 ∧ (3 : Nat) < 4294967296 ∧
      ([7] : List Nat).length < 4294967296) ∧
    sessionOfferUnmarshal ⟨0, 0, 0, [], []⟩
        (u16le 1 ++ [0, 0, 0, 0] ++ u32le 2 ++ u32le 3 ++
          u32le ([7] : List Nat).length ++ [7] ++ [0]) =
      some ⟨1, 2, 3,
        if 256 < ([7] : List Nat).length then [7].take ([7].length - 256) else [],
        if 256 < ([7] : List Nat).length then [7].drop ([7].length - 256) else []⟩ :=
  ⟨⟨by decide, by decide, by decide, by decide⟩,
    session_offer_unmarshal_spec ⟨0, 0, 0, [], []⟩ 1 2 3 [7]
      (by decide) (by decide) (by decide) (by decide)⟩

/-! ## Login crypto (`login/rec1.go`) -/

/-- `generateIV`: a 32-byte buffer with `iv[i] = 0xB6 - byte(i)` (Go byte
arithmetic, i.e. modulo 256; no wrap occurs for `i < 32`). -/
def generateIV : List Nat :=
  (List.range 32).map fun i => (0xB6 + 256 - i) % 256

/-- `generateKey`: a 32-byte key initialised with `key[i] = 0x17 + byte(i)`
and then overwritten at fixed indices with bytes of the little-endian
scratch encodings of `sid` (u16), `timeSecs` (u32) and `timeMillis` (u32):
`key[4] = sid⟨0⟩`, `key[5] = sid⟨2⟩ = 0`, `key[6] = sid⟨1⟩`,
`key[8] = secs⟨0⟩`, `key[9] = secs⟨2⟩`, `key[12] = secs⟨1⟩`,
`key[13] = secs⟨3⟩`, `key[14] = millis⟨0⟩`, `key[15] = millis⟨1⟩`. -/
def generateKey (sid timeSecs timeMillis : Nat) : List Nat :=
  (List.range 32).map fun i =>
    if i = 4 then sid % 256
    else if i = 5 then 0
    else if i = 6 then sid / 256 % 256
    else if i = 8 then timeSecs % 256
    else if i = 9 then timeSecs / 65536 % 256
    else if i = 12 then timeSecs / 256 % 256
    else if i = 13 then timeSecs / 16777216 % 256
    else if i = 14 then timeMillis % 256
    else if i = 15 then timeMillis / 256 % 256
    else (0x17 + i) % 256

/-- `generateIV()[:16]` as a block, indexed by position. -/
def rec1IV : Fin 16 → Nat := fun i => (generateIV.take 16).getD i.val 0

/-- The OFB keystream over a block encryption `E` (for `xorRec1`, the
Twofish cipher for the derived key — an external library primitive, taken
abstract here): feedback blocks are `E(iv), E(E(iv)), …`, and byte `j` of
the stream is byte `j % 16` of block `j / 16`. -/
def ofbKeystream (E : (Fin 16 → Nat) → Fin 16 → Nat) (iv : Fin 16 → Nat)
    (j : Nat) : Nat :=
  E^[j / 16 + 1] iv ⟨j % 16, Nat.mod_lt _ (by decide)⟩

/-- `stream.XORKeyStream(dst, src)`: byte `j` of the output is
`src[j] XOR keystream[j]`. -/
def xorKeyStream (ks : Nat → Nat) : Nat → List Nat → List Nat
  | _, [] => []
  | j, b :: rest => (b ^^^ ks j) :: xorKeyStream ks (j + 1) rest

/-- `xorRec1(buf, sid, timeSecs, timeMillis)`: XOR `buf` against the OFB
keystream of the block cipher `E (generateKey sid timeSecs timeMillis)`
under `rec1IV`.  `E` abstracts `twofish.NewCipher(key).Encrypt`. -/
def xorRec1 (E : List Nat → (Fin 16 → Nat) → Fin 16 → Nat)
    (buf : List Nat) (sid timeSecs timeMillis : Nat) : List Nat :=
  xorKeyStream (ofbKeystream (E (generateKey sid timeSecs timeMillis)) rec1IV) 0 buf

/-- `EncryptRec1 = xorRec1`. -/
def EncryptRec1 (E : List Nat → (Fin 16 → Nat) → Fin 16 → Nat)
    (plaintext : List Nat) (sid timeSecs timeMillis : Nat) : List Nat :=
  xorRec1 E plaintext sid timeSecs timeMillis

/-- `DecryptRec1 = xorRec1`: the very same function. -/
def DecryptRec1 (E : List Nat → (Fin 16 → Nat) → Fin 16 → Nat)
    (rec1 : List Nat) (sid timeSecs timeMillis : Nat) : List Nat :=
  xorRec1 E rec1 sid timeSecs timeMillis

theorem xorKeyStream_involutive (ks : Nat → Nat) (j : Nat) (l : List Nat) :
    xorKeyStream ks j (xorKeyStream ks j l) = l := by
  induction l generalizing j with
  | nil => rfl
  | cons b rest ih =>
    show (b ^^^ ks j ^^^ ks j) :: xorKeyStream ks (j + 1) (xorKeyStream ks (j + 1) rest) = _
    rw [Nat.xor_assoc, Nat.xor_self, Nat.xor_zero, ih]

/-- C9: `DecryptRec1 (EncryptRec1 p sid t m) sid t m = p` for every
plaintext, every parameter triple, and every block cipher `E` (in the
program, Twofish keyed by `generateKey`): both directions XOR against the
same OFB keystream, and XOR is an involution, so the encryption is its own
inverse. -/
theorem rec1_decrypt_encrypt (E : List Nat → (Fin 16 → Nat) → Fin 16 → Nat)
    (p : List Nat) (sid timeSecs timeMillis : Nat) :
    DecryptRec1 E (EncryptRec1 E p sid timeSecs timeMillis)
      sid timeSecs timeMillis = p :=
  xorKeyStream_involutive _ 0 p

/-! ## Table decoder (`dml/decode.go`) -/

/-- `binary.Read` for a single `uint8`/`int8`-sized value. -/
def readU8 : List Nat → Option (Nat × List Nat)
  | b :: rest => some (b, rest)
  | _ => none

/-- `binary.Read` for a `uint64`. -/
def readU64 : List Nat → Option (Nat × List Nat)
  | b0 :: b1 :: b2 :: b3 :: b4 :: b5 :: b6 :: b7 :: rest =>
    some (b0 + 256 * (b1 + 256 * (b2 + 256 * (b3 + 256 * (b4 + 256 *
      (b5 + 256 * (b6 + 256 * b7)))))), rest)
  | _ => none

/-- The field-type tags of `dml` (`GID = iota; INT; UINT; …`). -/
def GID : Nat := 0
def INT : Nat := 1
def UINT : Nat := 2
def FLT : Nat := 3
def BYT : Nat := 4
def UBYT : Nat := 5
def USHRT : Nat := 6
def DBL : Nat := 7
def STR : Nat := 8
def WSTR : Nat := 9

/-- A Go dynamic value (`any`) as stored into a `Record` by `readRecord`,
tagged with its static Go type.  Floats are represented by their raw bit
patterns (`f32bits`/`f64bits` are what `binary.Read` into a
`float32`/`float64` variable would hold); signed integers by their
mathematical value.  The extra constructors exist only so that the
spec's claimed typing can be expressed and compared. -/
inductive GoVal where
  | u8 (n : Nat)
  | u16 (n : Nat)
  | u32 (n : Nat)
  | u64 (n : Nat)
  | str (bytes : List Nat)
  | i8 (n : Int)
  | i32 (n : Int)
  | f32bits (n : Nat)
  | f64bits (n : Nat)
deriving DecidableEq

/-- `dml.RecordField`: a field name and its type tag. -/
structure RecordField where
  Name : String
  «Type» : Nat

/-- Outcome of reading one field (or a record): Go returns an error for a
short read, panics on an unknown type tag, and otherwise yields a value
and the remaining input. -/
inductive ReadFieldResult where
  | ok (v : GoVal) (rest : List Nat)
  | error
  | panic
deriving DecidableEq

/-- The `switch field.Type` of `readRecord`, reading one field value: note
the Go code declares `var v uint32` for `INT` and `FLT`, `var v uint8` for
`BYT`, and `var v uint64` for `DBL` — the raw unsigned bytes, not the
signed/float types the tags suggest.  `STR`/`WSTR` read a `uint16` length
then exactly that many bytes (`io.ReadFull`). -/
def readFieldVal : Nat → List Nat → ReadFieldResult
  | 0, l => match readU64 l with
    | some (v, r) => .ok (.u64 v) r
    | none => .error
  | 1, l => match readU32 l with
    | some (v, r) => .ok (.u32 v) r
    | none => .error
  | 2, l => match readU32 l with
    | some (v, r) => .ok (.u32 v) r
    | none => .error
  | 3, l => match readU32 l with
    | some (v, r) => .ok (.u32 v) r
    | none => .error
  | 4, l => match readU8 l with
    | some (v, r) => .ok (.u8 v) r
    | none => .error
  | 5, l => match readU8 l with
    | some (v, r) => .ok (.u8 v) r
    | none => .error
  | 6, l => match readU16 l with
    | some (v, r) => .ok (.u16 v) r
    | none => .error
  | 7, l => match readU64 l with
    | some (v, r) => .ok (.u64 v) r
    | none => .error
  | 8, l => match readU16 l with
    | some (n, r) =>
      match readBytes n r with
      | some (bs, r2) => .ok (.str bs) r2
      | none => .error
    | none => .error
  | 9, l => match readU16 l with
    | some (n, r) =>
      match readBytes n r with
      | some (bs, r2) => .ok (.str bs) r2
      | none => .error
    | none => .error
  | _, _ => .panic

/-- Go map assignment `record[name] = v` on a `Record` modelled as an
association list: replace an existing binding or append a new one. -/
def mapSet (m : List (String × GoVal)) (k : String) (v : GoVal) :
    List (String × GoVal) :=
  if m.any fun p => p.1 = k then
    m.map fun p => if p.1 = k then (k, v) else p
  else m ++ [(k, v)]

/-- Outcome of `readRecord`. -/
inductive RecResult where
  | ok (record : List (String × GoVal)) (rest : List Nat)
  | error
  | panic
deriving DecidableEq

/-- The field loop of `readRecord`, in template order. -/
def readFieldsGo : List RecordField → List (String × GoVal) → List Nat →
    RecResult
  | [], acc, r => .ok acc r
  | f :: fs, acc, r =>
    match readFieldVal f.«Type» r with
    | .panic => .panic
    | .error => .error
    | .ok v r2 => readFieldsGo fs (mapSet acc f.Name v) r2

/-- `readRecord(r, rc)`: read and discard the 16-bit `size`, then decode
each template field in order. -/
def readRecord (rc : List RecordField) (l : List Nat) : RecResult :=
  match readU16 l with
  | none => .error
  | some (_, r) => readFieldsGo rc [] r

/-- Two's-complement reading of a 32-bit pattern, for the spec's `i32`. -/
def toInt32 (n : Nat) : Int :=
  if n < 2147483648 then (n : Int) else (n : Int) - 4294967296

/-- Two's-complement reading of an 8-bit pattern, for the spec's `i8`. -/
def toInt8 (n : Nat) : Int :=
  if n < 128 then (n : Int) else (n : Int) - 256

/-- Modelled from the spec's field-type table (`INT=1 (i32)`, `FLT=3 (f32)`,
`BYT=4 (i8)`, `DBL=7 (f64)`, rest as in the code): what reading one field
would yield if the tags were decoded at their declared signed/float
types.  Exists solely for comparison against `readFieldVal`. -/
def readFieldValSpec : Nat → List Nat → ReadFieldResult
  | 1, l => match readU32 l with
    | some (v, r) => .ok (.i32 (toInt32 v)) r
    | none => .error
  | 3, l => match readU32 l with
    | some (v, r) => .ok (.f32bits v) r
    | none => .error
  | 4, l => match readU8 l with
    | some (v, r) => .ok (.i8 (toInt8 v)) r
    | none => .error
  | 7, l => match readU64 l with
    | some (v, r) => .ok (.f64bits v) r
    | none => .error
  | t, l => readFieldVal t l

/-- The spec's record reader: same loop, spec-typed field values. -/
def readRecordSpec (rc : List RecordField) (l : List Nat) : RecResult :=
  match readU16 l with
  | none => .error
  | some (_, r) => go rc [] r
where
  go : List RecordField → List (String × GoVal) → List Nat → RecResult
  | [], acc, r => .ok acc r
  | f :: fs, acc, r =>
    match readFieldValSpec f.«Type» r with
    | .panic => .panic
    | .error => .error
    | .ok v r2 => go fs (mapSet acc f.Name v) r2

/-- C10 (counterexample): an `INT` field with bytes `FF FF FF FF` is
stored by the code as the Go `uint32` value `4294967295` — not as the
signed 32-bit integer `-1` that the claimed `INT=1 (i32)` typing
prescribes. -/
theorem table_int_field_cex :
    readRecord [⟨"A", 1⟩] [0, 0, 255, 255, 255, 255] =
      RecResult.ok [("A", GoVal.u32 4294967295)] [] ∧
    readRecordSpec [⟨"A", 1⟩] [0, 0, 255, 255, 255, 255] =
      RecResult.ok [("A", GoVal.i32 (-1))] [] ∧
    readRecord [⟨"A", 1⟩] [0, 0, 255, 255, 255, 255] ≠
      readRecordSpec [⟨"A", 1⟩] [0, 0, 255, 255, 255, 255] := by
  refine ⟨by decide, by decide, by decide⟩

/-- C10 (amended): the typed value `readRecord` stores for a field follows
the types the CODE declares, not the tags' nominal types: `GID=0 → uint64`,
`INT=1 → uint32` (raw bits, not `i32`), `UINT=2 → uint32`,
`FLT=3 → uint32` (raw bits, not `f32`), `BYT=4 → uint8` (not `i8`),
`UBYT=5 → uint8`, `USHRT=6 → uint16`, `DBL=7 → uint64` (raw bits, not
`f64`), and `STR=8`/`WSTR=9 → {len:u16, bytes}` strings, all little-endian. -/
theorem table_field_decoding (nm : String)
    (s0 s1 b0 b1 b2 b3 b4 b5 b6 b7 : Nat) (bs rest : List Nat)
    (hbs : bs.length < 65536) :
    readRecord [⟨nm, GID⟩]
        (s0 :: s1 :: b0 :: b1 :: b2 :: b3 :: b4 :: b5 :: b6 :: b7 :: rest) =
      RecResult.ok [(nm, GoVal.u64 (b0 + 256 * (b1 + 256 * (b2 + 256 * (b3 +
        256 * (b4 + 256 * (b5 + 256 * (b6 + 256 * b7))))))))] rest ∧
    readRecord [⟨nm, INT⟩] (s0 :: s1 :: b0 :: b1 :: b2 :: b3 :: rest) =
      RecResult.ok [(nm, GoVal.u32 (b0 + 256 * (b1 + 256 * (b2 + 256 * b3))))]
        rest ∧
    readRecord [⟨nm, UINT⟩] (s0 :: s1 :: b0 :: b1 :: b2 :: b3 :: rest) =
      RecResult.ok [(nm, GoVal.u32 (b0 + 256 * (b1 + 256 * (b2 + 256 * b3))))]
        rest ∧
    readRecord [⟨nm, FLT⟩] (s0 :: s1 :: b0 :: b1 :: b2 :: b3 :: rest) =
      RecResult.ok [(nm, GoVal.u32 (b0 + 256 * (b1 + 256 * (b2 + 256 * b3))))]
        rest ∧
    readRecord [⟨nm, BYT⟩] (s0 :: s1 :: b0 :: rest) =
      RecResult.ok [(nm, GoVal.u8 b0)] rest ∧
    readRecord [⟨nm, UBYT⟩] (s0 :: s1 :: b0 :: rest) =
      RecResult.ok [(nm, GoVal.u8 b0)] rest ∧
    readRecord [⟨nm, USHRT⟩] (s0 :: s1 :: b0 :: b1 :: rest) =
      RecResult.ok [(nm, GoVal.u16 (b0 + 256 * b1))] rest ∧
    readRecord [⟨nm, DBL⟩]
        (s0 :: s1 :: b0 :: b1 :: b2 :: b3 :: b4 :: b5 :: b6 :: b7 :: rest) =
      RecResult.ok [(nm, GoVal.u64 (b0 + 256 * (b1 + 256 * (b2 + 256 * (b3 +
        256 * (b4 + 256 * (b5 + 256 * (b6 + 256 * b7))))))))] rest ∧
    readRecord [⟨nm, STR⟩] (s0 :: s1 :: (u16le bs.length ++ (bs ++ rest))) =
      RecResult.ok [(nm, GoVal.str bs)] rest ∧
    readRecord [⟨nm, WSTR⟩] (s0 :: s1 :: (u16le bs.length ++ (bs ++ rest))) =
      RecResult.ok [(nm, GoVal.str bs)] rest := by
  have h8 : readFieldVal 8 (u16le bs.length ++ (bs ++ rest)) =
      ReadFieldResult.ok (GoVal.str bs) rest := by
    simp only [readFieldVal, readU16_u16le bs.length hbs, readBytes_exact]
  have h9 : readFieldVal 9 (u16le bs.length ++ (bs ++ rest)) =
      ReadFieldResult.ok (GoVal.str bs) rest := by
    simp only [readFieldVal, readU16_u16le bs.length hbs, readBytes_exact]
  refine ⟨rfl, rfl, rfl, rfl, rfl, rfl, rfl, rfl, ?_, ?_⟩
  · show readFieldsGo [⟨nm, 8⟩] [] (u16le bs.length ++ (bs ++ rest)) = _
    simp [readFieldsGo, h8, mapSet]
  · show readFieldsGo [⟨nm, 9⟩] [] (u16le bs.length ++ (bs ++ rest)) = _
    simp [readFieldsGo, h9, mapSet]

/-- Witness for `table_field_decoding` with field name `"A"`, size bytes
`0 0`, value bytes `1 2 3 4 5 6 7 8`, and the two-byte string `[65, 66]`. -/
theorem table_field_decoding_witness :
    ([65, 66] : List Nat).length < 65536 ∧
    readRecord [⟨"A", INT⟩] (0 :: 0 :: 1 :: 2 :: 3 :: 4 :: []) =
      RecResult.ok [("A", GoVal.u32 (1 + 256 * (2 + 256 * (3 + 256 * 4))))]
        [] :=
  ⟨by decide,
    (table_field_decoding "A" 0 0 1 2 3 4 5 6 7 8 [65, 66] []
      (by decide)).2.1⟩
